import Mathlib

/-!
Verification development for the `init-schema` schema-splitting tool.

The tool classifies a stream of already-parsed SQL statements into typed
entities (`locations.rs`), resolves each entity to an output file path
(`StatementLocation::path`), and appends rendered statements to files,
skipping content already present (`write.rs`).  The definitions below are a
shallow embedding of those three source files; the external SQL parser
(`pg_query`) is modelled as an oracle mapping raw statement text to the
syntax-tree shapes the classifier inspects.
-/

set_option maxRecDepth 100000

/-! ## String utilities

Character-list models of the Rust `str` operations used by the source:
`str::contains` (substring search), `str::find`, `str::split`,
`str::trim_end`, `str::trim_end_matches(',')` and `str::replace`. -/

/-- Does `s` start with `pat`?  Model of Rust `str::starts_with` as used by
substring search. -/
def leadsWith : List Char → List Char → Bool
  | [], _ => true
  | _ :: _, [] => false
  | p :: ps, c :: cs => p == c && leadsWith ps cs

/-- Does `s` contain `pat` as a contiguous substring?  Model of Rust
`str::contains`. -/
def hasSub (pat : List Char) : List Char → Bool
  | [] => leadsWith pat []
  | c :: cs => leadsWith pat (c :: cs) || hasSub pat cs

/-- `strHas hay pat`: does `hay` contain `pat`?  (Rust `hay.contains(pat)`.) -/
def strHas (hay pat : String) : Bool := hasSub pat.data hay.data

/-- Index (in characters) of the first occurrence of `pat`, model of Rust
`str::find` for ASCII text, where byte and character indices coincide. -/
def findIdx (pat : List Char) : List Char → Option Nat
  | [] => if leadsWith pat [] then some 0 else none
  | c :: cs =>
    if leadsWith pat (c :: cs) then some 0
    else (findIdx pat cs).map (· + 1)

/-- Fuelled worker for `splitOnL`; the fuel is an upper bound on the number
of characters consumed, so `length + 1` always suffices. -/
def splitGo (pat : List Char) : Nat → List Char → List Char → List (List Char)
  | 0, s, acc => [acc.reverse ++ s]
  | fuel + 1, s, acc =>
    match s with
    | [] => [acc.reverse]
    | c :: cs =>
      if leadsWith pat (c :: cs) then
        acc.reverse :: splitGo pat fuel ((c :: cs).drop pat.length) []
      else
        splitGo pat fuel cs (c :: acc)

/-- Split `s` on non-overlapping occurrences of `pat`, model of Rust
`str::split` with a string pattern. -/
def splitOnL (pat s : List Char) : List (List Char) :=
  splitGo pat (s.length + 1) s []

/-- ASCII whitespace test (the statements handled here are ASCII SQL). -/
def wsChar (c : Char) : Bool := c == ' ' || c == '\t' || c == '\n' || c == '\r'

/-- Drop trailing whitespace, model of Rust `str::trim_end`. -/
def trimEndWsL (l : List Char) : List Char :=
  (l.reverse.dropWhile wsChar).reverse

/-- Drop all trailing commas, model of Rust `str::trim_end_matches(',')`. -/
def trimEndCommaL (l : List Char) : List Char :=
  (l.reverse.dropWhile (fun c => c == ',')).reverse

/-- Fuelled worker for `replAll`; one unit of fuel is spent per character
consumed, so the input length always suffices for a non-empty pattern. -/
def replGo (pat rep : List Char) : Nat → List Char → List Char
  | 0, s => s
  | fuel + 1, s =>
    if leadsWith pat s && !pat.isEmpty then
      rep ++ replGo pat rep fuel (s.drop pat.length)
    else
      match s with
      | [] => []
      | c :: cs => c :: replGo pat rep fuel cs

/-- Replace every non-overlapping occurrence of `pat` by `rep`, left to
right; model of Rust `str::replace`. -/
def replAll (pat rep s : List Char) : List Char :=
  replGo pat rep s.length s

/-- SQL single-quote escaping `comment.replace("'", "''")` from `parse.rs`. -/
def escQuote (s : String) : String :=
  String.mk (replAll [Char.ofNat 39] [Char.ofNat 39, Char.ofNat 39] s.data)

/-- Append a terminating semicolon unless one is already present
(`ensure_semicolon` in `locations.rs`). -/
def ensureSemicolon (s : String) : String :=
  if s.data.getLast? = some ';' then s else s ++ ";"

/-- Distinct values of a list of strings, keeping the last occurrence of
each; models the `HashSet` collection in `StatementLocation::path`, whose
placement decision depends only on the set of values. -/
def dedupL : List String → List String
  | [] => []
  | a :: as => if as.contains a then dedupL as else a :: dedupL as

/-! ## Entities (`locations.rs`)

One constructor per variant of the Rust `StatementLocation` enum; fields
follow the corresponding Rust structs. -/

/-- The classified-entity type: Rust `enum StatementLocation` with the
fields of its payload structs inlined, in source order. -/
inductive StatementLocation where
  | schema (name sql : String)
  | table (schema name sql : String)
  | function (schema name sql : String)
  | enablePolicy (schema table sql : String)
  | policy (schema name table sql : String)
  | index (schema name table sql : String)
  | view (schema name sql : String)
  | triggerFunction (schema name sql : String)
  | trigger (schema name table func sql : String)
  | enumNode (schema name sql : String)
  | compositeType (schema name sql : String)
  | foreignKey (constraintName sourceSchema sourceTable targetSchema targetTable sql : String)
  | setup (sql : String)
  | aggregate (schema name sql : String)
  | operator (schema name sql : String)
  | sequence (table : Option String) (schema name sql : String)
  deriving DecidableEq, Repr

/-- Rendered SQL of an entity: its stored text with a terminating semicolon
(`StatementLocation::sql`). -/
def sqlSL : StatementLocation → String
  | .schema _ q => ensureSemicolon q
  | .table _ _ q => ensureSemicolon q
  | .function _ _ q => ensureSemicolon q
  | .enablePolicy _ _ q => ensureSemicolon q
  | .policy _ _ _ q => ensureSemicolon q
  | .index _ _ _ q => ensureSemicolon q
  | .view _ _ q => ensureSemicolon q
  | .triggerFunction _ _ q => ensureSemicolon q
  | .trigger _ _ _ _ q => ensureSemicolon q
  | .enumNode _ _ q => ensureSemicolon q
  | .compositeType _ _ q => ensureSemicolon q
  | .foreignKey _ _ _ _ _ q => ensureSemicolon q
  | .setup q => ensureSemicolon q
  | .aggregate _ _ q => ensureSemicolon q
  | .operator _ _ q => ensureSemicolon q
  | .sequence _ _ _ q => ensureSemicolon q

/-- Tables used by triggers that call the trigger function named `fn`
(the `filter_map` collection in the `TriggerFunction` arm of
`StatementLocation::path`; the Rust code matches on the function name only,
ignoring schemas). -/
def triggerTables (nodes : List StatementLocation) (fn : String) : List String :=
  nodes.filterMap fun m =>
    match m with
    | .trigger _ _ tb f _ => if f = fn then some tb else none
    | _ => none

/-- Owning table of a sequence found by scanning the catalog for a
`Sequence` entity with the same name and schema that carries a table
(the `unwrap_or_else` scan in the `Sequence` arm of
`StatementLocation::path`; `.next()` takes the first match). -/
def seqOwnedLookup (nodes : List StatementLocation) (s nm : String) : Option String :=
  (nodes.filterMap fun m =>
    match m with
    | .sequence (some tb) ms mn _ => if mn = nm ∧ ms = s then some tb else none
    | _ => none).head?

/-- Output path of an entity (`StatementLocation::path`).  `PathBuf::join`
is modelled as string concatenation with `/`.  Returns `none` exactly where
the Rust code panics (a sequence whose owning table cannot be found). -/
def pathOf (n : StatementLocation) (baseDir : String) (nodes : List StatementLocation) :
    Option String :=
  match n with
  | .schema name _ => some (baseDir ++ "/" ++ name ++ "/index.sql")
  | .setup _ => some (baseDir ++ "/index.sql")
  | .table s nm _ => some (baseDir ++ "/" ++ s ++ "/tables/" ++ nm ++ ".sql")
  | .function s nm _ => some (baseDir ++ "/" ++ s ++ "/functions/" ++ nm ++ ".sql")
  | .enablePolicy s t _ => some (baseDir ++ "/" ++ s ++ "/policies/" ++ t ++ "/enable_rls.sql")
  | .policy s nm t _ => some (baseDir ++ "/" ++ s ++ "/policies/" ++ t ++ "/" ++ nm ++ ".sql")
  | .index s nm t _ => some (baseDir ++ "/" ++ s ++ "/indices/" ++ t ++ "/" ++ nm ++ ".sql")
  | .view s nm _ => some (baseDir ++ "/" ++ s ++ "/views/" ++ nm ++ ".sql")
  | .triggerFunction s nm _ =>
    match dedupL (triggerTables nodes nm) with
    | [t] => some (baseDir ++ "/" ++ s ++ "/triggers/" ++ t ++ "/" ++ nm ++ ".sql")
    | _ => some (baseDir ++ "/" ++ s ++ "/triggers/" ++ nm ++ ".sql")
  | .trigger s _ t fn _ => some (baseDir ++ "/" ++ s ++ "/triggers/" ++ t ++ "/" ++ fn ++ ".sql")
  | .enumNode s nm _ => some (baseDir ++ "/" ++ s ++ "/enums/" ++ nm ++ ".sql")
  | .compositeType s nm _ => some (baseDir ++ "/" ++ s ++ "/types/" ++ nm ++ ".sql")
  | .foreignKey cn ss st _ _ _ =>
    some (baseDir ++ "/" ++ ss ++ "/fkeys/" ++ st ++ "/" ++ cn ++ ".sql")
  | .aggregate s nm _ => some (baseDir ++ "/" ++ s ++ "/aggregates/" ++ nm ++ ".sql")
  | .operator s nm _ => some (baseDir ++ "/" ++ s ++ "/operators/" ++ nm ++ ".sql")
  | .sequence t? s nm _ =>
    match t? with
    | some t => some (baseDir ++ "/" ++ s ++ "/tables/" ++ t ++ ".sql")
    | none =>
      (seqOwnedLookup nodes s nm).map fun t =>
        baseDir ++ "/" ++ s ++ "/tables/" ++ t ++ ".sql"

/-! ## File system and writer (`write.rs`)

The file tree is an association list from full paths to file contents;
directories need no separate representation. -/

/-- The output file tree: path to contents. -/
abbrev FileSys := List (String × String)

/-- Contents of the file at `p`, if it exists. -/
def fsRead : FileSys → String → Option String
  | [], _ => none
  | (q, d) :: rest, p => if q = p then some d else fsRead rest p

/-- Set the contents of the file at `p`, creating it if absent. -/
def fsWrite : FileSys → String → String → FileSys
  | [], p, c => [(p, c)]
  | (q, d) :: rest, p, c =>
    if q = p then (p, c) :: rest else (q, d) :: fsWrite rest p c

/-- One step of `write_nodes`: append `content` plus a newline to the file
at `p`, creating it if needed, unless the file already contains `content`
as a substring. -/
def appendNode (fs : FileSys) (p content : String) : FileSys :=
  match fsRead fs p with
  | some old =>
    if strHas old content then fs
    else fsWrite fs p (old ++ content ++ "\n")
  | none => fsWrite fs p (content ++ "\n")

/-- Worker for `write_nodes`: processes the remaining entities while the
full catalog `allNodes` stays available for path resolution.  The boolean
is `false` when a path resolution panics mid-run, leaving the tree written
so far. -/
def writeGo (allNodes : List StatementLocation) (dir : String) :
    List StatementLocation → FileSys → FileSys × Bool
  | [], fs => (fs, true)
  | n :: rest, fs =>
    match pathOf n dir allNodes with
    | none => (fs, false)
    | some p => writeGo allNodes dir rest (appendNode fs p (sqlSL n))

/-- `write_nodes`: write every entity of the catalog into the tree rooted
at `dir`. -/
def writeNodes (nodes : List StatementLocation) (dir : String) (fs : FileSys) :
    FileSys × Bool :=
  writeGo nodes dir nodes fs

/-- Remove every file under `dir` (model of `fs::remove_dir_all` on the
output root in `main.rs`; all files written below `dir` have `dir ++ "/"`
at the front of their path). -/
def removeTree (fs : FileSys) (dir : String) : FileSys :=
  fs.filter fun e => !leadsWith (dir ++ "/").data e.1.data

/-! ## Parsed statement shapes (`pg_query` syntax trees)

The external parser is out of scope; these inductives mirror exactly the
protobuf shapes that `parse.rs` inspects, and an oracle
`String → NodeE` stands for `parse_sql`. -/

/-- Rust `RangeVar`: a (schema, relation) reference. -/
structure RangeVar where
  schemaname : String
  relname : String
  deriving DecidableEq, Repr

/-- Constraint types distinguished by the `ADD CONSTRAINT` arm
(`pg_query::protobuf::ConstrType`); `cOther` covers every other value. -/
inductive ConstrTypeE where
  | cForeign
  | cPrimary
  | cUnique
  | cCheck
  | cExclusion
  | cOther
  deriving DecidableEq, Repr

/-- The fields of a protobuf `Constraint` read by `parse.rs`: its type,
name, and referenced table (`pktable`, present only for foreign keys). -/
structure ConstraintDef where
  contype : ConstrTypeE
  conname : String
  pktable : Option (String × String)
  deriving DecidableEq, Repr

/-- `ALTER TABLE` sub-command kinds (`pg_query::protobuf::AlterTableType`);
the add-constraint payload carries the parsed constraint when present. -/
inductive AtSubtype where
  | atColumnDefault
  | atEnableRowSecurity
  | atAddConstraint (con : Option ConstraintDef)
  | atChangeOwner
  | atOther
  deriving DecidableEq, Repr

/-- Targets of a `COMMENT ON` statement, by object type, carrying the
qualified-name payload `parse.rs` extracts in each arm. -/
inductive CommentTarget where
  | colT (items : List String)
  | funcT (objname : List String)
  | schemaT (name : String)
  | typeT (names : List String)
  | tableT (items : List String)
  | otherT
  deriving DecidableEq, Repr

/-- Targets of an `ALTER ... OWNER TO` statement, by object type. -/
inductive OwnerTarget where
  | oSchema (name : String)
  | oAggregate (objname : List String)
  | oOperator (objname : List String)
  | oFunction (objname : List String)
  | oType (items : List String)
  | oOther
  deriving DecidableEq, Repr

/-- Targets of a `GRANT` statement, by object type. -/
inductive GrantTarget where
  | gSchema (name : String)
  | gTable (rv : RangeVar)
  | gSequence (rv : RangeVar)
  | gFunction (objname : List String)
  | gOther
  deriving DecidableEq, Repr

/-- `DefineStmt` kinds distinguished by `parse.rs`. -/
inductive DefKind where
  | dAggregate
  | dOperator
  | dOther
  deriving DecidableEq, Repr

/-- `VariableSetStmt` kinds: `VarResetAll` against everything else. -/
inductive VarSetKind where
  | varResetAll
  | varOther
  deriving DecidableEq, Repr

/-- The top-level statement shapes dispatched in `parse`, one constructor
per `NodeEnum` arm; `unsupportedNode` is every other statement kind.
Option lists in `AlterSeqStmt` and `AlterDefaultPrivilegesStmt` are
modelled as `(defname, argument string list)` pairs. -/
inductive NodeE where
  | createSchemaStmt (schemaname : String)
  | commentStmt (target : CommentTarget) (comment : String)
  | createEnumStmt (typeName : List String)
  | defineStmt (kind : DefKind) (defnames : List String)
  | compositeTypeStmt (typevar : RangeVar)
  | viewStmt (view : RangeVar)
  | createPolicyStmt (policyName : String) (table : RangeVar)
  | createStmt (relation : RangeVar)
  | createTrigStmt (relation : RangeVar) (funcname : List String) (trigname : String)
  | createFunctionStmt (funcname : List String) (returnTypeNames : List String)
  | indexStmt (relation : RangeVar) (idxname : String)
  | alterTableStmt (relation : RangeVar) (cmds : List AtSubtype)
  | variableSetStmt (kind : VarSetKind)
  | selectStmt
  | alterOwnerStmt (target : OwnerTarget)
  | createSeqStmt (sequence : RangeVar)
  | alterSeqStmt (sequence : RangeVar) (options : List (String × List String))
  | grantStmt (target : GrantTarget)
  | alterDefaultPrivilegesStmt (options : List (String × List String))
  | unsupportedNode
  deriving DecidableEq, Repr

/-- Classification failures, following the panic sites of `parse.rs`:
`unsupportedKind` for statement kinds or sub-kinds outside the closed
dispatch set, `unresolvedRef` for a (schema, name) reference with no prior
match in the catalog, `malformed` for structurally absent or inconsistent
fields, and `fuelOut` for exhaustion of the recursion bound (which no run
of the original program reaches). -/
inductive ParseErr where
  | unsupportedKind
  | unresolvedRef
  | malformed
  | fuelOut
  deriving DecidableEq, Repr

deriving instance DecidableEq for Except

/-! ## Catalog lookups (`find_*` helpers of `parse.rs`) -/

/-- Is there a `Table` entity named (s, nm) in the catalog (`find_table`)? -/
def findTable (nodes : List StatementLocation) (s nm : String) : Bool :=
  nodes.any fun m =>
    match m with
    | .table ms mn _ => decide (ms = s ∧ mn = nm)
    | _ => false

/-- Is there a `View` entity named (s, nm) in the catalog (`find_view`)? -/
def findView (nodes : List StatementLocation) (s nm : String) : Bool :=
  nodes.any fun m =>
    match m with
    | .view ms mn _ => decide (ms = s ∧ mn = nm)
    | _ => false

/-- Is there an `Enum` entity named (s, nm) in the catalog (`find_enum`)? -/
def findEnum (nodes : List StatementLocation) (s nm : String) : Bool :=
  nodes.any fun m =>
    match m with
    | .enumNode ms mn _ => decide (ms = s ∧ mn = nm)
    | _ => false

/-- Is there a `CompositeType` entity named (s, nm) in the catalog
(`find_composite_type`)? -/
def findCompositeType (nodes : List StatementLocation) (s nm : String) : Bool :=
  nodes.any fun m =>
    match m with
    | .compositeType ms mn _ => decide (ms = s ∧ mn = nm)
    | _ => false

/-- Is there a `TriggerFunction` entity named (s, nm) in the catalog
(`find_trigger_function`)? -/
def findTriggerFunction (nodes : List StatementLocation) (s nm : String) : Bool :=
  nodes.any fun m =>
    match m with
    | .triggerFunction ms mn _ => decide (ms = s ∧ mn = nm)
    | _ => false

/-- Is there a `Function` entity named (s, nm) in the catalog
(`find_function`)? -/
def findFunction (nodes : List StatementLocation) (s nm : String) : Bool :=
  nodes.any fun m =>
    match m with
    | .function ms mn _ => decide (ms = s ∧ mn = nm)
    | _ => false

/-- Is there an `Aggregate` entity named (s, nm) in the catalog
(`find_aggregate`)? -/
def findAggregate (nodes : List StatementLocation) (s nm : String) : Bool :=
  nodes.any fun m =>
    match m with
    | .aggregate ms mn _ => decide (ms = s ∧ mn = nm)
    | _ => false

/-- Schema component of a qualified-name list, defaulting to `public` when
the name has a single component (`get_schema_or_default`). -/
def getSchemaOrDefault : List String → String
  | a :: _ :: _ => a
  | _ => "public"

/-! ## Rendered statement texts re-emitted by the classifier -/

/-- Rendered column comment (`parse.rs`, `ObjectColumn` arm). -/
def commentColSql (s t col cm : String) : String :=
  "COMMENT ON COLUMN \"" ++ s ++ "\".\"" ++ t ++ "\".\"" ++ col ++
    "\" IS E'" ++ escQuote cm ++ "';"

/-- Rendered function comment (`parse.rs`, `ObjectFunction` arm). -/
def commentFnSql (s fn cm : String) : String :=
  "COMMENT ON FUNCTION \"" ++ s ++ "\".\"" ++ fn ++ "\" IS E'" ++ escQuote cm ++ "';"

/-- Rendered schema comment (`parse.rs`, `ObjectSchema` arm). -/
def commentSchemaSql (nm cm : String) : String :=
  "COMMENT ON SCHEMA \"" ++ nm ++ "\" IS E'" ++ escQuote cm ++ "';"

/-- Rendered type comment (`parse.rs`, `ObjectType` arm). -/
def commentTypeSql (s nm cm : String) : String :=
  "COMMENT ON TYPE \"" ++ s ++ "\".\"" ++ nm ++ "\" IS E'" ++ escQuote cm ++ "';"

/-- Rendered table comment (`parse.rs`, `ObjectTable` arm; note the source
uses a plain quoted literal here, without the `E` prefix or escaping). -/
def commentTableSql (s nm cm : String) : String :=
  "COMMENT ON TABLE \"" ++ s ++ "\".\"" ++ nm ++ "\" IS '" ++ cm ++ "';"

/-- Rendered view comment (`parse.rs`, `ObjectTable` arm, view case). -/
def commentViewSql (s nm cm : String) : String :=
  "COMMENT ON VIEW \"" ++ s ++ "\".\"" ++ nm ++ "\" IS '" ++ cm ++ "';"

/-! ## The classifier (`parse.rs`) -/

/-- Entity produced for a single supported `ADD CONSTRAINT` command
(`parse.rs` lines 402–447): a `ForeignKey` entity for foreign-key
constraints, a `Table` entity for primary-key/unique/check/exclusion
constraints, and a failure otherwise. -/
def singleConstraintEntity (sql : String) (rv : RangeVar) (c : ConstraintDef) :
    Except ParseErr StatementLocation :=
  match c.contype with
  | .cForeign =>
    match c.pktable with
    | none => .error .malformed
    | some (ts, tt) =>
      .ok (.foreignKey c.conname rv.schemaname rv.relname ts tt sql)
  | .cPrimary => .ok (.table rv.schemaname rv.relname sql)
  | .cUnique => .ok (.table rv.schemaname rv.relname sql)
  | .cCheck => .ok (.table rv.schemaname rv.relname sql)
  | .cExclusion => .ok (.table rv.schemaname rv.relname sql)
  | .cOther => .error .unsupportedKind

/-- Split a multi-constraint `ALTER TABLE` text into synthetic
single-constraint statements (`parse.rs` lines 376–401): locate the first
`ADD CONSTRAINT`, split the tail on `ADD CONSTRAINT`, keep the head of the
statement from `ALTER TABLE` up to the first clause, and rebuild each
non-empty piece as `begin ++ "ADD CONSTRAINT" ++ piece` with trailing
whitespace and commas stripped. -/
def splitConstraintTexts (sql : String) : Option (List String) :=
  match findIdx "ADD CONSTRAINT".data sql.data with
  | none => none
  | some aci =>
    match findIdx "ALTER TABLE".data sql.data with
    | none => none
    | some ati =>
      let pieces := splitOnL "ADD CONSTRAINT".data (sql.data.drop aci)
      let begl := (sql.data.take aci).drop ati
      some (pieces.filterMap fun cmd =>
        if cmd.isEmpty then none
        else some (String.mk
          (begl ++ "ADD CONSTRAINT".data ++ trimEndCommaL (trimEndWsL cmd))))

/-- Sequence the classifier over a list of statements, threading the
catalog, stopping at the first failure (`get_nodes`' fold, and the
recursive loop over synthetic split statements). -/
def goMany (step : String → List StatementLocation → Except ParseErr (List StatementLocation)) :
    List String → List StatementLocation → Except ParseErr (List StatementLocation)
  | [], acc => .ok acc
  | t :: ts, acc =>
    match step t acc with
    | .error e => .error e
    | .ok acc2 => goMany step ts acc2

/-- One dispatch of `parse` over an already-parsed statement; `recur` is
the recursive re-entry used by the multi-constraint `ALTER TABLE` split,
which re-parses synthesized text through the oracle. -/
def classifyStep (oracle : String → NodeE)
    (recur : String → List StatementLocation → Except ParseErr (List StatementLocation))
    (sql : String) (nodes : List StatementLocation) :
    Except ParseErr (List StatementLocation) :=
  match oracle sql with
  | .createSchemaStmt nm => .ok (nodes ++ [.schema nm sql])
  | .commentStmt target cm =>
    match target with
    | .colT items =>
      match items with
      | [s, t, col] =>
        if findTable nodes s t then
          .ok (nodes ++ [.table s t (commentColSql s t col cm)])
        else if findView nodes s t then
          .ok (nodes ++ [.view s t (commentColSql s t col cm)])
        else .error .unresolvedRef
      | _ => .error .malformed
    | .funcT objname =>
      match objname with
      | [s, fn] =>
        if findTriggerFunction nodes s fn then
          .ok (nodes ++ [.triggerFunction s fn (commentFnSql s fn cm)])
        else if findFunction nodes s fn then
          .ok (nodes ++ [.function s fn (commentFnSql s fn cm)])
        else .error .unresolvedRef
      | _ => .error .malformed
    | .schemaT nm => .ok (nodes ++ [.schema nm (commentSchemaSql nm cm)])
    | .typeT names =>
      match names with
      | [s, nm] =>
        if findEnum nodes s nm then
          .ok (nodes ++ [.enumNode s nm (commentTypeSql s nm cm)])
        else if findCompositeType nodes s nm then
          .ok (nodes ++ [.compositeType s nm (commentTypeSql s nm cm)])
        else .error .unresolvedRef
      | _ => .error .malformed
    | .tableT items =>
      match items with
      | [s, nm] =>
        if findTable nodes s nm then
          .ok (nodes ++ [.table s nm (commentTableSql s nm cm)])
        else if findView nodes s nm then
          .ok (nodes ++ [.view s nm (commentViewSql s nm cm)])
        else .error .unresolvedRef
      | _ => .error .malformed
    | .otherT => .error .unsupportedKind
  | .createEnumStmt names =>
    match names.getLast? with
    | none => .error .malformed
    | some nm => .ok (nodes ++ [.enumNode (getSchemaOrDefault names) nm sql])
  | .defineStmt kind names =>
    match kind with
    | .dAggregate =>
      match names.getLast? with
      | none => .error .malformed
      | some nm => .ok (nodes ++ [.aggregate (getSchemaOrDefault names) nm sql])
    | .dOperator =>
      match names.getLast? with
      | none => .error .malformed
      | some nm => .ok (nodes ++ [.operator (getSchemaOrDefault names) nm sql])
    | .dOther => .error .unsupportedKind
  | .compositeTypeStmt rv => .ok (nodes ++ [.compositeType rv.schemaname rv.relname sql])
  | .viewStmt rv => .ok (nodes ++ [.view rv.schemaname rv.relname sql])
  | .createPolicyStmt nm rv => .ok (nodes ++ [.policy rv.schemaname nm rv.relname sql])
  | .createStmt rv => .ok (nodes ++ [.table rv.schemaname rv.relname sql])
  | .createTrigStmt rv funcname trigname =>
    match funcname.getLast? with
    | none => .error .malformed
    | some fn => .ok (nodes ++ [.trigger rv.schemaname trigname rv.relname fn sql])
  | .createFunctionStmt funcname returnTypeNames =>
    match funcname.getLast? with
    | none => .error .malformed
    | some fn =>
      if returnTypeNames.any (fun x => decide (x = "trigger")) then
        .ok (nodes ++ [.triggerFunction (getSchemaOrDefault funcname) fn sql])
      else
        .ok (nodes ++ [.function (getSchemaOrDefault funcname) fn sql])
  | .indexStmt rv idxname => .ok (nodes ++ [.index rv.schemaname idxname rv.relname sql])
  | .alterTableStmt rv cmds =>
    match cmds with
    | [] => .error .malformed
    | c0 :: rest =>
      match c0 with
      | .atColumnDefault => .ok (nodes ++ [.table rv.schemaname rv.relname sql])
      | .atEnableRowSecurity =>
        .ok (nodes ++ [.enablePolicy rv.schemaname rv.relname sql])
      | .atAddConstraint con? =>
        if rest.isEmpty then
          match con? with
          | none => .error .malformed
          | some c =>
            match singleConstraintEntity sql rv c with
            | .error e => .error e
            | .ok ent => .ok (nodes ++ [ent])
        else
          match splitConstraintTexts sql with
          | none => .error .malformed
          | some texts => goMany recur texts nodes
      | .atChangeOwner => .ok nodes
      | .atOther => .error .unsupportedKind
  | .variableSetStmt kind =>
    match kind with
    | .varResetAll => .ok nodes
    | .varOther => .ok (nodes ++ [.setup sql])
  | .selectStmt => .ok (nodes ++ [.setup sql])
  | .alterOwnerStmt target =>
    match target with
    | .oSchema nm => .ok (nodes ++ [.schema nm sql])
    | .oAggregate objname =>
      match objname with
      | [s, nm] => .ok (nodes ++ [.aggregate s nm sql])
      | _ => .error .malformed
    | .oOperator objname =>
      match objname with
      | [s, nm] => .ok (nodes ++ [.operator s nm sql])
      | _ => .error .malformed
    | .oFunction objname =>
      match objname with
      | [s, fn] =>
        if findTriggerFunction nodes s fn then
          .ok (nodes ++ [.triggerFunction s fn sql])
        else
          .ok (nodes ++ [.function s fn sql])
      | _ => .error .malformed
    | .oType items =>
      match items with
      | [s, nm] =>
        if findEnum nodes s nm then
          .ok (nodes ++ [.enumNode s nm sql])
        else if findCompositeType nodes s nm then
          .ok (nodes ++ [.compositeType s nm sql])
        else .error .unresolvedRef
      | _ => .error .malformed
    | .oOther => .error .unsupportedKind
  | .createSeqStmt rv => .ok (nodes ++ [.sequence none rv.schemaname rv.relname sql])
  | .alterSeqStmt rv options =>
    match options.find? (fun o => o.1 == "owned_by") with
    | none => .error .malformed
    | some opt =>
      match opt.2 with
      | [sc, tb, _] =>
        if sc = rv.schemaname then
          .ok (nodes ++ [.sequence (some tb) rv.schemaname rv.relname sql])
        else .error .malformed
      | _ => .error .malformed
  | .grantStmt target =>
    match target with
    | .gSchema nm => .ok (nodes ++ [.schema nm sql])
    | .gTable rv =>
      if findTable nodes rv.schemaname rv.relname then
        .ok (nodes ++ [.table rv.schemaname rv.relname sql])
      else if findView nodes rv.schemaname rv.relname then
        .ok (nodes ++ [.view rv.schemaname rv.relname sql])
      else .error .unresolvedRef
    | .gSequence rv => .ok (nodes ++ [.sequence none rv.schemaname rv.relname sql])
    | .gFunction objname =>
      match objname with
      | [s, fn] =>
        if findTriggerFunction nodes s fn then
          .ok (nodes ++ [.triggerFunction s fn sql])
        else if findFunction nodes s fn then
          .ok (nodes ++ [.function s fn sql])
        else if findAggregate nodes s fn then
          .ok (nodes ++ [.aggregate s fn sql])
        else .error .unresolvedRef
      | _ => .error .malformed
    | .gOther => .error .unsupportedKind
  | .alterDefaultPrivilegesStmt options =>
    match options.find? (fun o => o.1 == "schemas") with
    | none => .error .malformed
    | some opt =>
      match opt.2.head? with
      | none => .error .malformed
      | some nm => .ok (nodes ++ [.schema nm sql])
  | .unsupportedNode => .error .unsupportedKind

/-- `parse`: classify one statement, with `fuel` bounding the recursion
depth of the multi-constraint re-entry (the original recursion is bounded
by the nesting of the textual split, so any sufficiently large fuel agrees
with it). -/
def parseSt (oracle : String → NodeE) :
    Nat → String → List StatementLocation → Except ParseErr (List StatementLocation)
  | 0 => fun _ _ => .error .fuelOut
  | fuel + 1 => classifyStep oracle (parseSt oracle fuel)

/-- `get_nodes`: classify a whole dump, starting from the empty catalog. -/
def getNodes (oracle : String → NodeE) (fuel : Nat) (stmts : List String) :
    Except ParseErr (List StatementLocation) :=
  goMany (parseSt oracle fuel) stmts []

/-- The pipeline of `main.rs`: classify every statement, and only on full
success remove the output root and write the catalog.  A classification
failure aborts before any file is touched; a writing failure leaves the
files written so far. -/
def runPipeline (oracle : String → NodeE) (fuel : Nat) (stmts : List String)
    (outDir : String) (fs : FileSys) : FileSys × Option ParseErr :=
  match getNodes oracle fuel stmts with
  | .error e => (fs, some e)
  | .ok nodes =>
    match writeNodes nodes outDir (removeTree fs outDir) with
    | (fs2, true) => (fs2, none)
    | (fs2, false) => (fs2, some .unresolvedRef)

/-! ## Substring and file-system lemmas -/

lemma leadsWith_self_append (pat t : List Char) : leadsWith pat (pat ++ t) = true := by
  induction pat with
  | nil => simp [leadsWith]
  | cons p ps ih => simp [leadsWith, ih]

lemma hasSub_nil (s : List Char) : hasSub [] s = true := by
  cases s <;> simp [hasSub, leadsWith]

lemma hasSub_self_append (pat t : List Char) : hasSub pat (pat ++ t) = true := by
  cases pat with
  | nil => simpa using hasSub_nil t
  | cons p ps =>
    rw [List.cons_append]
    simp only [hasSub, Bool.or_eq_true]
    exact Or.inl (leadsWith_self_append (p :: ps) t)

lemma hasSub_sandwich (pat s t : List Char) : hasSub pat (s ++ (pat ++ t)) = true := by
  induction s with
  | nil => simpa using hasSub_self_append pat t
  | cons c cs ih =>
    rw [List.cons_append]
    simp only [hasSub, Bool.or_eq_true]
    exact Or.inr ih

lemma leadsWith_append_right (pat s t : List Char) (h : leadsWith pat s = true) :
    leadsWith pat (s ++ t) = true := by
  induction pat generalizing s with
  | nil => simp [leadsWith]
  | cons p ps ih =>
    cases s with
    | nil => simp [leadsWith] at h
    | cons c cs =>
      simp [leadsWith] at h ⊢
      exact ⟨h.1, ih cs h.2⟩

lemma hasSub_append_right (pat s t : List Char) (h : hasSub pat s = true) :
    hasSub pat (s ++ t) = true := by
  induction s with
  | nil =>
    cases pat with
    | nil => simpa using hasSub_nil t
    | cons p ps => simp [hasSub, leadsWith] at h
  | cons c cs ih =>
    simp only [hasSub, Bool.or_eq_true] at h
    rw [List.cons_append]
    simp only [hasSub, Bool.or_eq_true]
    rcases h with h | h
    · exact Or.inl (leadsWith_append_right _ _ _ h)
    · exact Or.inr (ih h)

lemma strHas_self_append (c t : String) : strHas (c ++ t) c = true := by
  unfold strHas
  rw [String.data_append]
  exact hasSub_self_append c.data t.data

lemma strHas_sandwich (old c t : String) : strHas (old ++ c ++ t) c = true := by
  unfold strHas
  rw [String.data_append, String.data_append, List.append_assoc]
  exact hasSub_sandwich c.data old.data t.data

lemma strHas_append_right (old c t : String) (h : strHas old c = true) :
    strHas (old ++ t) c = true := by
  unfold strHas at h ⊢
  rw [String.data_append]
  exact hasSub_append_right _ _ _ h

/-- The file at `p` exists and already contains `c` as a substring. -/
def fileHas (fs : FileSys) (p c : String) : Prop :=
  ∃ old, fsRead fs p = some old ∧ strHas old c = true

lemma fsRead_fsWrite_self (fs : FileSys) (p v : String) :
    fsRead (fsWrite fs p v) p = some v := by
  induction fs with
  | nil => simp [fsWrite, fsRead]
  | cons e rest ih =>
    obtain ⟨q, d⟩ := e
    by_cases h : q = p
    · simp [fsWrite, fsRead, h]
    · simp [fsWrite, fsRead, h, ih]

lemma fsRead_fsWrite_other (fs : FileSys) (p q v : String) (hpq : p ≠ q) :
    fsRead (fsWrite fs p v) q = fsRead fs q := by
  induction fs with
  | nil => simp [fsWrite, fsRead, hpq]
  | cons e rest ih =>
    obtain ⟨k, d⟩ := e
    by_cases h : k = p
    · subst h
      simp [fsWrite, fsRead, hpq]
    · simp [fsWrite, fsRead, h, ih]

lemma fileHas_appendNode_self (fs : FileSys) (p c : String) :
    fileHas (appendNode fs p c) p c := by
  unfold appendNode
  cases h : fsRead fs p with
  | none =>
    exact ⟨c ++ "\n", fsRead_fsWrite_self .., strHas_self_append c "\n"⟩
  | some old =>
    dsimp only
    by_cases hs : strHas old c = true
    · rw [if_pos hs]
      exact ⟨old, h, hs⟩
    · rw [if_neg hs]
      exact ⟨old ++ c ++ "\n", fsRead_fsWrite_self .., strHas_sandwich old c "\n"⟩

lemma fileHas_appendNode_mono (fs : FileSys) (p c q d : String) (h : fileHas fs p c) :
    fileHas (appendNode fs q d) p c := by
  obtain ⟨old, hread, hsub⟩ := h
  unfold appendNode
  by_cases hpq : q = p
  · subst hpq
    rw [hread]
    dsimp only
    by_cases hs : strHas old d = true
    · rw [if_pos hs]
      exact ⟨old, hread, hsub⟩
    · rw [if_neg hs]
      refine ⟨old ++ d ++ "\n", fsRead_fsWrite_self .., ?_⟩
      exact strHas_append_right _ _ _ (strHas_append_right _ _ _ hsub)
  · cases h2 : fsRead fs q with
    | none =>
      exact ⟨old, by rw [fsRead_fsWrite_other _ _ _ _ hpq]; exact hread, hsub⟩
    | some oldq =>
      dsimp only
      by_cases hs : strHas oldq d = true
      · rw [if_pos hs]
        exact ⟨old, hread, hsub⟩
      · rw [if_neg hs]
        exact ⟨old, by rw [fsRead_fsWrite_other _ _ _ _ hpq]; exact hread, hsub⟩

lemma appendNode_of_has (fs : FileSys) (p c : String) (h : fileHas fs p c) :
    appendNode fs p c = fs := by
  obtain ⟨old, hread, hsub⟩ := h
  unfold appendNode
  rw [hread]
  dsimp only
  rw [if_pos hsub]

/-! ## Writer invariants -/

lemma writeGo_mono (allNodes : List StatementLocation) (dir : String)
    (ns : List StatementLocation) (fs fs2 : FileSys) (p c : String)
    (h : writeGo allNodes dir ns fs = (fs2, true)) (hh : fileHas fs p c) :
    fileHas fs2 p c := by
  induction ns generalizing fs with
  | nil =>
    simp only [writeGo, Prod.mk.injEq] at h
    rw [← h.1]
    exact hh
  | cons n rest ih =>
    simp only [writeGo] at h
    cases hp : pathOf n dir allNodes with
    | none => rw [hp] at h; simp at h
    | some pth =>
      rw [hp] at h
      exact ih _ h (fileHas_appendNode_mono _ _ _ _ _ hh)

lemma writeGo_establishes (allNodes : List StatementLocation) (dir : String)
    (ns : List StatementLocation) (fs fs2 : FileSys)
    (h : writeGo allNodes dir ns fs = (fs2, true)) :
    ∀ n ∈ ns, ∃ p, pathOf n dir allNodes = some p ∧ fileHas fs2 p (sqlSL n) := by
  induction ns generalizing fs with
  | nil => intro n hn; simp at hn
  | cons m rest ih =>
    intro n hn
    simp only [writeGo] at h
    cases hp : pathOf m dir allNodes with
    | none => rw [hp] at h; simp at h
    | some pth =>
      rw [hp] at h
      rcases List.mem_cons.mp hn with hn | hn
      · subst hn
        exact ⟨pth, hp, writeGo_mono _ _ _ _ _ _ _ h (fileHas_appendNode_self _ _ _)⟩
      · exact ih _ h n hn

lemma writeGo_skips (allNodes : List StatementLocation) (dir : String)
    (ns : List StatementLocation) (fs : FileSys)
    (h : ∀ n ∈ ns, ∃ p, pathOf n dir allNodes = some p ∧ fileHas fs p (sqlSL n)) :
    writeGo allNodes dir ns fs = (fs, true) := by
  induction ns with
  | nil => rfl
  | cons m rest ih =>
    obtain ⟨p, hp, hhas⟩ := h m (List.mem_cons_self m rest)
    simp only [writeGo, hp, appendNode_of_has _ _ _ hhas]
    exact ih fun n hn => h n (List.mem_cons_of_mem m hn)

/-! ## Claim theorems -/

/-- C4: for every catalog and output root, running the writer a second time
on the result of a first successful run changes nothing: the second run
returns the same file tree, appending nothing. -/
theorem writer_idempotent (nodes : List StatementLocation) (dir : String)
    (fs fs1 : FileSys) (h : writeNodes nodes dir fs = (fs1, true)) :
    writeNodes nodes dir fs1 = (fs1, true) := by
  unfold writeNodes at h ⊢
  exact writeGo_skips _ _ _ _ (writeGo_establishes _ _ _ _ _ h)

def c4nodes : List StatementLocation :=
  [.schema "app" "CREATE SCHEMA app",
   .table "app" "users" "CREATE TABLE app.users (id int)"]

def c4tree : FileSys :=
  [("out/app/index.sql", "CREATE SCHEMA app;\n"),
   ("out/app/tables/users.sql", "CREATE TABLE app.users (id int);\n")]

/-- Witness for C4 at a concrete two-entity catalog. -/
theorem writer_idempotent_witness :
    writeNodes c4nodes "out" [] = (c4tree, true)
    ∧ writeNodes c4nodes "out" c4tree = (c4tree, true) :=
  ⟨by decide, writer_idempotent c4nodes "out" [] c4tree (by decide)⟩

/-- C9: the writer's duplicate check is substring containment: when the
entity's rendered SQL occurs anywhere inside the current contents of its
target file, the writer skips the append and the whole tree is unchanged. -/
theorem writer_substring_skip (n : StatementLocation) (dir : String) (fs : FileSys)
    (p old : String) (hp : pathOf n dir [n] = some p)
    (hold : fsRead fs p = some old) (hsub : strHas old (sqlSL n) = true) :
    writeNodes [n] dir fs = (fs, true) := by
  unfold writeNodes
  apply writeGo_skips
  intro m hm
  rw [List.mem_singleton] at hm
  subst hm
  exact ⟨p, hp, old, hold, hsub⟩

def c9node : StatementLocation := .table "s" "t" "CREATE TABLE s.t (id int)"

def c9tree : FileSys :=
  [("out/s/tables/t.sql", "BEGIN; CREATE TABLE s.t (id int); COMMIT;\n")]

/-- Witness for C9: the rendered statement occurs strictly inside a longer
line that was never appended as this entity's own statement, and the
writer still skips. -/
theorem writer_substring_skip_witness :
    writeNodes [c9node] "out" c9tree = (c9tree, true) :=
  writer_substring_skip c9node "out" c9tree "out/s/tables/t.sql"
    "BEGIN; CREATE TABLE s.t (id int); COMMIT;\n" (by decide) (by decide) (by decide)

def oracleC7 : String → NodeE := fun s =>
  if s = "CREATE SCHEMA app;" then .createSchemaStmt "app"
  else if s = "CREATE TABLE app.users (id int);" then .createStmt ⟨"app", "users"⟩
  else if s = "COMMENT ON TABLE app.users IS 'users table';" then
    .commentStmt (.tableT ["app", "users"]) "users table"
  else .unsupportedNode

/-- C7: classifying `CREATE SCHEMA app;`, `CREATE TABLE app.users (id int);`
and `COMMENT ON TABLE app.users IS 'users table';` in order yields exactly
three catalog entries, and writing them into an empty tree produces exactly
two files: `app/index.sql` with the schema statement, and
`app/tables/users.sql` with the CREATE TABLE statement followed by the
re-rendered comment statement, in that order. -/
theorem end_to_end_example :
    getNodes oracleC7 1
      ["CREATE SCHEMA app;", "CREATE TABLE app.users (id int);",
       "COMMENT ON TABLE app.users IS 'users table';"]
      = .ok [.schema "app" "CREATE SCHEMA app;",
             .table "app" "users" "CREATE TABLE app.users (id int);",
             .table "app" "users" "COMMENT ON TABLE \"app\".\"users\" IS 'users table';"]
    ∧ writeNodes
        [.schema "app" "CREATE SCHEMA app;",
         .table "app" "users" "CREATE TABLE app.users (id int);",
         .table "app" "users" "COMMENT ON TABLE \"app\".\"users\" IS 'users table';"]
        "out" []
      = ([("out/app/index.sql", "CREATE SCHEMA app;\n"),
          ("out/app/tables/users.sql",
           "CREATE TABLE app.users (id int);\nCOMMENT ON TABLE \"app\".\"users\" IS 'users table';\n")],
         true) := by
  exact ⟨by decide, by decide⟩

def oracleC6 : String → NodeE := fun s =>
  if s = "CREATE SCHEMA app;" then .createSchemaStmt "app" else .unsupportedNode

/-- C6 counterexample: the pipeline classifies the whole dump before
writing anything, so a failing statement aborts the run with zero files
written — in particular no file for the prior, successfully classified
`CREATE SCHEMA app;`, although writing that entity alone would have created
`out/app/index.sql`. -/
theorem classify_abort_counterexample :
    parseSt oracleC6 1 "CREATE SCHEMA app;" [] = .ok [.schema "app" "CREATE SCHEMA app;"]
    ∧ runPipeline oracleC6 1 ["CREATE SCHEMA app;", "CREATE EXTENSION ltree;"] "out" []
        = ([], some .unsupportedKind)
    ∧ fsRead (runPipeline oracleC6 1
          ["CREATE SCHEMA app;", "CREATE EXTENSION ltree;"] "out" []).1
        "out/app/index.sql" = none
    ∧ writeNodes [.schema "app" "CREATE SCHEMA app;"] "out" []
        = ([("out/app/index.sql", "CREATE SCHEMA app;\n")], true) := by
  exact ⟨by decide, by decide, by decide, by decide⟩

/-- C6 amended: when classification of any statement fails, the run aborts
during the classification phase, before any file is written: the output
tree is left exactly as it was before the run, with no file created for
any statement, prior or failing. -/
theorem classify_abort_amended (oracle : String → NodeE) (fuel : Nat)
    (stmts : List String) (dir : String) (fs : FileSys) (e : ParseErr)
    (h : getNodes oracle fuel stmts = .error e) :
    runPipeline oracle fuel stmts dir fs = (fs, some e) := by
  unfold runPipeline
  rw [h]

/-- Witness for the amended C6 on a concrete failing dump and a non-empty
pre-existing tree. -/
theorem classify_abort_amended_witness :
    runPipeline oracleC6 1 ["CREATE SCHEMA app;", "DROP TABLE app.users;"] "x"
      [("keep.txt", "k")] = ([("keep.txt", "k")], some .unsupportedKind) :=
  classify_abort_amended oracleC6 1 _ "x" _ .unsupportedKind (by decide)

/-- C10: a `RESET ALL` session-variable statement is silently dropped by
the classifier — no entity, no error — while another variable-set kind
yields a `Setup` entity, and a statement kind outside the dispatch set
aborts with `unsupportedKind`. -/
theorem reset_all_dropped (oracle : String → NodeE) (fuel : Nat) (sql : String)
    (nodes : List StatementLocation) :
    (oracle sql = .variableSetStmt .varResetAll →
      parseSt oracle (fuel + 1) sql nodes = .ok nodes)
    ∧ (oracle sql = .variableSetStmt .varOther →
      parseSt oracle (fuel + 1) sql nodes = .ok (nodes ++ [.setup sql]))
    ∧ (oracle sql = .unsupportedNode →
      parseSt oracle (fuel + 1) sql nodes = .error .unsupportedKind) := by
  refine ⟨?_, ?_, ?_⟩ <;> intro h <;> simp [parseSt, classifyStep, h]

def oracleC10 : String → NodeE := fun s =>
  if s = "RESET ALL;" then .variableSetStmt .varResetAll
  else if s = "SET statement_timeout = 0;" then .variableSetStmt .varOther
  else .unsupportedNode

/-- Witness for C10 at concrete statements. -/
theorem reset_all_dropped_witness :
    parseSt oracleC10 1 "RESET ALL;" [] = .ok []
    ∧ parseSt oracleC10 1 "SET statement_timeout = 0;" []
        = .ok [.setup "SET statement_timeout = 0;"]
    ∧ parseSt oracleC10 1 "CREATE EXTENSION ltree;" [] = .error .unsupportedKind :=
  ⟨(reset_all_dropped oracleC10 0 "RESET ALL;" []).1 (by decide),
   (reset_all_dropped oracleC10 0 "SET statement_timeout = 0;" []).2.1 (by decide),
   (reset_all_dropped oracleC10 0 "CREATE EXTENSION ltree;" []).2.2 (by decide)⟩

/-- C8: for an `ALTER SEQUENCE ... OWNED BY` statement with a three-part
operand, a schema component differing from the schema of the statement's
sequence name is a fatal malformed-statement failure; when the schemas
agree, a new `Sequence` entity carrying the operand's table is emitted. -/
theorem alterSeq_owned_by_schema (oracle : String → NodeE) (fuel : Nat) (sql : String)
    (rv : RangeVar) (sc tb col : String) (nodes : List StatementLocation)
    (h : oracle sql = .alterSeqStmt rv [("owned_by", [sc, tb, col])]) :
    (sc ≠ rv.schemaname → parseSt oracle (fuel + 1) sql nodes = .error .malformed)
    ∧ (sc = rv.schemaname → parseSt oracle (fuel + 1) sql nodes
        = .ok (nodes ++ [.sequence (some tb) rv.schemaname rv.relname sql])) := by
  constructor <;> intro hsc <;> simp [parseSt, classifyStep, h, List.find?, hsc]

def oracleC8 : String → NodeE := fun s =>
  if s = "ALTER SEQUENCE s.seq OWNED BY other.tbl.id;" then
    .alterSeqStmt ⟨"s", "seq"⟩ [("owned_by", ["other", "tbl", "id"])]
  else if s = "ALTER SEQUENCE s.seq OWNED BY s.tbl.id;" then
    .alterSeqStmt ⟨"s", "seq"⟩ [("owned_by", ["s", "tbl", "id"])]
  else .unsupportedNode

/-- Witness for C8: a mismatching and a matching concrete statement. -/
theorem alterSeq_owned_by_schema_witness :
    parseSt oracleC8 1 "ALTER SEQUENCE s.seq OWNED BY other.tbl.id;" []
      = .error .malformed
    ∧ parseSt oracleC8 1 "ALTER SEQUENCE s.seq OWNED BY s.tbl.id;" []
      = .ok [.sequence (some "tbl") "s" "seq" "ALTER SEQUENCE s.seq OWNED BY s.tbl.id;"] :=
  ⟨(alterSeq_owned_by_schema oracleC8 0 _ ⟨"s", "seq"⟩ "other" "tbl" "id" []
      (by decide)).1 (by decide),
   (alterSeq_owned_by_schema oracleC8 0 _ ⟨"s", "seq"⟩ "s" "tbl" "id" []
      (by decide)).2 (by decide)⟩

def oracleC5 : String → NodeE := fun s =>
  if s = "CREATE SEQUENCE s.seq;" then .createSeqStmt ⟨"s", "seq"⟩
  else if s = "ALTER SEQUENCE s.seq OWNED BY s.tbl.id;" then
    .alterSeqStmt ⟨"s", "seq"⟩ [("owned_by", ["s", "tbl", "id"])]
  else .unsupportedNode

/-- C5: a sequence resolves to `<schema>/tables/<owning-table>.sql`, taking
the owning table from the entity itself when present, otherwise from the
first other `Sequence` entity with the same (schema, name) that carries
one; with no such entity the resolution fails.  In particular
`CREATE SEQUENCE s.seq;` followed by `ALTER SEQUENCE s.seq OWNED BY
s.tbl.id;` yields `Sequence` entities resolving to `s/tables/tbl.sql`. -/
theorem sequence_path_resolution :
    (∀ (root s nm q t : String) (nodes : List StatementLocation),
      pathOf (.sequence (some t) s nm q) root nodes
        = some (root ++ "/" ++ s ++ "/tables/" ++ t ++ ".sql"))
    ∧ (∀ (root s nm q t : String) (nodes : List StatementLocation),
      seqOwnedLookup nodes s nm = some t →
      pathOf (.sequence none s nm q) root nodes
        = some (root ++ "/" ++ s ++ "/tables/" ++ t ++ ".sql"))
    ∧ (∀ (root s nm q : String) (nodes : List StatementLocation),
      seqOwnedLookup nodes s nm = none →
      pathOf (.sequence none s nm q) root nodes = none)
    ∧ (getNodes oracleC5 1
        ["CREATE SEQUENCE s.seq;", "ALTER SEQUENCE s.seq OWNED BY s.tbl.id;"]
        = .ok [.sequence none "s" "seq" "CREATE SEQUENCE s.seq;",
               .sequence (some "tbl") "s" "seq" "ALTER SEQUENCE s.seq OWNED BY s.tbl.id;"]
      ∧ pathOf (.sequence (some "tbl") "s" "seq" "ALTER SEQUENCE s.seq OWNED BY s.tbl.id;")
          "out"
          [.sequence none "s" "seq" "CREATE SEQUENCE s.seq;",
           .sequence (some "tbl") "s" "seq" "ALTER SEQUENCE s.seq OWNED BY s.tbl.id;"]
          = some "out/s/tables/tbl.sql"
      ∧ pathOf (.sequence none "s" "seq" "CREATE SEQUENCE s.seq;") "out"
          [.sequence none "s" "seq" "CREATE SEQUENCE s.seq;",
           .sequence (some "tbl") "s" "seq" "ALTER SEQUENCE s.seq OWNED BY s.tbl.id;"]
          = some "out/s/tables/tbl.sql") := by
  refine ⟨?_, ?_, ?_, by decide, by decide, by decide⟩
  · intro root s nm q t nodes
    simp [pathOf]
  · intro root s nm q t nodes h
    simp [pathOf, h]
  · intro root s nm q nodes h
    simp [pathOf, h]

/-- Witness for C5's lookup cases at a concrete catalog. -/
theorem sequence_path_resolution_witness :
    seqOwnedLookup
        [.sequence none "s" "seq" "CREATE SEQUENCE s.seq;",
         .sequence (some "tbl") "s" "seq" "ALTER SEQUENCE s.seq OWNED BY s.tbl.id;"]
        "s" "seq" = some "tbl"
    ∧ pathOf (.sequence none "s" "seq" "CREATE SEQUENCE s.seq;") "out"
        [.sequence none "s" "seq" "CREATE SEQUENCE s.seq;",
         .sequence (some "tbl") "s" "seq" "ALTER SEQUENCE s.seq OWNED BY s.tbl.id;"]
        = some ("out" ++ "/" ++ "s" ++ "/tables/" ++ "tbl" ++ ".sql") :=
  ⟨by decide,
   sequence_path_resolution.2.1 "out" "s" "seq" "CREATE SEQUENCE s.seq;" "tbl" _ (by decide)⟩

def c1tf : StatementLocation := .triggerFunction "s" "f" "CREATE FUNCTION s.f() RETURNS trigger"

def c1nodes : List StatementLocation :=
  [c1tf,
   .trigger "s" "tg1" "t" "f" "CREATE TRIGGER tg1 BEFORE INSERT ON s.t EXECUTE FUNCTION s.f()",
   .trigger "s" "tg2" "t" "f" "CREATE TRIGGER tg2 BEFORE UPDATE ON s.t EXECUTE FUNCTION s.f()"]

/-- C1 counterexample: two Trigger entities (not exactly one) name the
trigger function `f`, yet because they use the same table the resolver
still places `f` in the per-table directory, not at
`<schema>/triggers/<name>.sql` as the claim requires for the
two-or-more-entities case. -/
theorem triggerFunction_placement_counterexample :
    (c1nodes.countP fun m =>
      match m with
      | .trigger _ _ _ fn _ => decide (fn = "f")
      | _ => false) = 2
    ∧ pathOf c1tf "out" c1nodes = some "out/s/triggers/t/f.sql"
    ∧ ("out/s/triggers/t/f.sql" : String) ≠ "out/s/triggers/f.sql" := by
  exact ⟨by decide, by decide, by decide⟩

/-- C1 amended: a TriggerFunction is placed at
`<schema>/triggers/<that-table>/<name>.sql` when the Trigger entities
naming its function use exactly one distinct table, and at
`<schema>/triggers/<name>.sql` otherwise (zero or at least two distinct
tables); the count is over distinct using tables, not Trigger entities. -/
theorem triggerFunction_placement_amended (root s fn q : String)
    (nodes : List StatementLocation) :
    (∀ t, dedupL (triggerTables nodes fn) = [t] →
      pathOf (.triggerFunction s fn q) root nodes
        = some (root ++ "/" ++ s ++ "/triggers/" ++ t ++ "/" ++ fn ++ ".sql"))
    ∧ ((dedupL (triggerTables nodes fn)).length ≠ 1 →
      pathOf (.triggerFunction s fn q) root nodes
        = some (root ++ "/" ++ s ++ "/triggers/" ++ fn ++ ".sql")) := by
  constructor
  · intro t ht
    simp [pathOf, ht]
  · intro hlen
    cases hd : dedupL (triggerTables nodes fn) with
    | nil => simp [pathOf, hd]
    | cons a rest =>
      cases rest with
      | nil => exact absurd (by rw [hd]; rfl) hlen
      | cons b rest2 => simp [pathOf, hd]

/-- Witness for the amended C1: one distinct using table places the
function per-table even with two triggers; an empty catalog (zero using
tables) places it in the general triggers directory. -/
theorem triggerFunction_placement_amended_witness :
    (dedupL (triggerTables c1nodes "f") = ["t"]
      ∧ pathOf (.triggerFunction "s" "f" "CREATE FUNCTION s.f() RETURNS trigger")
          "out" c1nodes
        = some ("out" ++ "/" ++ "s" ++ "/triggers/" ++ "t" ++ "/" ++ "f" ++ ".sql"))
    ∧ pathOf (.triggerFunction "s" "f" "CREATE FUNCTION s.f() RETURNS trigger") "out" []
        = some ("out" ++ "/" ++ "s" ++ "/triggers/" ++ "f" ++ ".sql") :=
  ⟨⟨by decide,
    (triggerFunction_placement_amended "out" "s" "f"
      "CREATE FUNCTION s.f() RETURNS trigger" c1nodes).1 "t" (by decide)⟩,
   (triggerFunction_placement_amended "out" "s" "f"
      "CREATE FUNCTION s.f() RETURNS trigger" []).2 (by decide)⟩

def oracleC2 : String → NodeE := fun t =>
  if t = "ALTER FUNCTION s.f OWNER TO admin;" then .alterOwnerStmt (.oFunction ["s", "f"])
  else .unsupportedNode

/-- C2 counterexample: an owner-change on a function name with an empty
catalog — no TriggerFunction, Function or Aggregate entity exists — does
not fail: the classifier unconditionally emits a Function entity,
contradicting the claim that such statements fail exactly when no entity
of those kinds exists. -/
theorem function_target_counterexample :
    findTriggerFunction [] "s" "f" = false
    ∧ findFunction [] "s" "f" = false
    ∧ findAggregate [] "s" "f" = false
    ∧ parseSt oracleC2 1 "ALTER FUNCTION s.f OWNER TO admin;" []
        = .ok [.function "s" "f" "ALTER FUNCTION s.f OWNER TO admin;"] := by
  exact ⟨by decide, by decide, by decide, by decide⟩

/-- C2 amended: the three statement kinds resolve function targets
differently.  A grant prefers TriggerFunction, then Function, then
Aggregate, and fails iff none exists; a comment prefers TriggerFunction,
then Function, never consults Aggregate, and fails iff neither exists; an
owner-change prefers TriggerFunction and otherwise unconditionally emits a
Function entity, never failing. -/
theorem function_target_resolution (oracle : String → NodeE) (fuel : Nat)
    (sql s fn cm : String) (nodes : List StatementLocation) :
    (oracle sql = .commentStmt (.funcT [s, fn]) cm →
      parseSt oracle (fuel + 1) sql nodes =
        (if findTriggerFunction nodes s fn then
          .ok (nodes ++ [.triggerFunction s fn (commentFnSql s fn cm)])
        else if findFunction nodes s fn then
          .ok (nodes ++ [.function s fn (commentFnSql s fn cm)])
        else .error .unresolvedRef))
    ∧ (oracle sql = .grantStmt (.gFunction [s, fn]) →
      parseSt oracle (fuel + 1) sql nodes =
        (if findTriggerFunction nodes s fn then .ok (nodes ++ [.triggerFunction s fn sql])
        else if findFunction nodes s fn then .ok (nodes ++ [.function s fn sql])
        else if findAggregate nodes s fn then .ok (nodes ++ [.aggregate s fn sql])
        else .error .unresolvedRef))
    ∧ (oracle sql = .alterOwnerStmt (.oFunction [s, fn]) →
      parseSt oracle (fuel + 1) sql nodes =
        (if findTriggerFunction nodes s fn then .ok (nodes ++ [.triggerFunction s fn sql])
        else .ok (nodes ++ [.function s fn sql]))) := by
  refine ⟨?_, ?_, ?_⟩ <;> intro h <;> simp only [parseSt, classifyStep, h]

def oracleC2w : String → NodeE := fun t =>
  if t = "GRANT ALL ON FUNCTION s.g TO admin;" then .grantStmt (.gFunction ["s", "g"])
  else .unsupportedNode

/-- Witness for the amended C2: a grant on a name matched only by an
Aggregate entity resolves to an Aggregate entity via the third preference
step. -/
theorem function_target_resolution_witness :
    parseSt oracleC2w 1 "GRANT ALL ON FUNCTION s.g TO admin;"
      [.aggregate "s" "g" "CREATE AGGREGATE s.g(int)"]
      = .ok [.aggregate "s" "g" "CREATE AGGREGATE s.g(int)",
             .aggregate "s" "g" "GRANT ALL ON FUNCTION s.g TO admin;"] := by
  have h := (function_target_resolution oracleC2w 0 "GRANT ALL ON FUNCTION s.g TO admin;"
    "s" "g" "" [.aggregate "s" "g" "CREATE AGGREGATE s.g(int)"]).2.1 (by decide)
  rw [h]
  decide

/-- C3: an `ALTER TABLE` whose command list holds two `ADD CONSTRAINT`
clauses is split at the textual constraint boundaries into the synthetic
single-constraint statements `t1` and `t2`; each is reclassified
recursively as a complete single-constraint `ALTER TABLE` statement,
producing exactly the two entities derived from those texts. -/
theorem multi_constraint_split (oracle : String → NodeE) (fuel : Nat)
    (sql t1 t2 : String) (rv rv1 rv2 : RangeVar) (d0 d1 : Option ConstraintDef)
    (c1 c2 : ConstraintDef) (nodes : List StatementLocation)
    (e1 e2 : StatementLocation)
    (h : oracle sql = .alterTableStmt rv [.atAddConstraint d0, .atAddConstraint d1])
    (hsplit : splitConstraintTexts sql = some [t1, t2])
    (h1 : oracle t1 = .alterTableStmt rv1 [.atAddConstraint (some c1)])
    (h2 : oracle t2 = .alterTableStmt rv2 [.atAddConstraint (some c2)])
    (he1 : singleConstraintEntity t1 rv1 c1 = .ok e1)
    (he2 : singleConstraintEntity t2 rv2 c2 = .ok e2) :
    parseSt oracle (fuel + 2) sql nodes = .ok (nodes ++ [e1, e2]) := by
  have p1 : parseSt oracle (fuel + 1) t1 nodes = .ok (nodes ++ [e1]) := by
    simp [parseSt, classifyStep, h1, he1]
  have p2 : parseSt oracle (fuel + 1) t2 (nodes ++ [e1]) = .ok (nodes ++ [e1] ++ [e2]) := by
    simp [parseSt, classifyStep, h2, he2]
  simp only [parseSt, classifyStep, h, hsplit]
  simp only [List.isEmpty_cons, if_false, Bool.false_eq_true]
  simp only [parseSt] at p1 p2
  simp [goMany, p1, p2]

def c3sql : String :=
  "ALTER TABLE s.t ADD CONSTRAINT a PRIMARY KEY (id), ADD CONSTRAINT b UNIQUE (x);"

def c3t1 : String := "ALTER TABLE s.t ADD CONSTRAINT a PRIMARY KEY (id)"

def c3t2 : String := "ALTER TABLE s.t ADD CONSTRAINT b UNIQUE (x);"

def oracleC3 : String → NodeE := fun s =>
  if s = c3sql then
    .alterTableStmt ⟨"s", "t"⟩
      [.atAddConstraint (some ⟨.cPrimary, "a", none⟩),
       .atAddConstraint (some ⟨.cUnique, "b", none⟩)]
  else if s = c3t1 then
    .alterTableStmt ⟨"s", "t"⟩ [.atAddConstraint (some ⟨.cPrimary, "a", none⟩)]
  else if s = c3t2 then
    .alterTableStmt ⟨"s", "t"⟩ [.atAddConstraint (some ⟨.cUnique, "b", none⟩)]
  else .unsupportedNode

/-- Witness for C3: the concrete double-constraint statement splits into
the two expected single-constraint texts and classifies into exactly the
two Table entities carrying those texts. -/
theorem multi_constraint_split_witness :
    splitConstraintTexts c3sql = some [c3t1, c3t2]
    ∧ parseSt oracleC3 2 c3sql [] = .ok [.table "s" "t" c3t1, .table "s" "t" c3t2] :=
  ⟨by decide,
   multi_constraint_split oracleC3 0 c3sql c3t1 c3t2 ⟨"s", "t"⟩ ⟨"s", "t"⟩ ⟨"s", "t"⟩
     (some ⟨.cPrimary, "a", none⟩) (some ⟨.cUnique, "b", none⟩)
     ⟨.cPrimary, "a", none⟩ ⟨.cUnique, "b", none⟩ []
     (.table "s" "t" c3t1) (.table "s" "t" c3t2)
     (by decide) (by decide) (by decide) (by decide) (by decide) (by decide)⟩
